import Mathlib

/-! Shallow embedding of `src/package/gui.py` (FORCE GUI launcher): the
process-supervision core of `BasicGUI`: command construction
(`_build_script_command`, lines 190-206), the background run body
(`_run_script`, lines 228-276), the cancel dialog (`_ask_cancel`,
lines 127-135) and the `run_script` entry point (lines 208-282).

Modelling choices, used consistently below:

* `time.time()` is modelled by a call-indexed clock `clock : Nat → Nat`
  returning seconds: call `0` is `start_time` (line 246), call `i+1` is the
  call made after the `i`-th output line (line 265), and the final call is
  the one at line 275.
* `p.poll()` after the read loop returns the child's exit code when the loop
  ended at end-of-stream (the child has exited and closed its pipe). When the
  loop ended via `break` right after the non-blocking `p.terminate()`, the
  poll result is genuinely racy, so it is part of the modelled child
  behaviour (`pollAfterCancel`): `none` while the terminated child has not
  yet been reaped, or its exit code (e.g. `-15` after SIGTERM, or the real
  exit code of a child that had already exited) once it has — in the latter
  case line 272 overwrites the `Halted` status with `Error (c)`. The two
  adjacent poll calls at lines 272-273 are modelled as one value.
* The GUI widgets are projected onto the fields the supervision logic
  touches: status label (stored without the `Status: ` display prefix),
  elapsed-time label, output text lines, the two button states, the cancel
  flag and the selected input file.
* The child's observable behaviour is a list of pipe read results (lines or
  a read failure), a flag saying whether `subprocess.Popen` succeeds, and an
  exit code; the cross-thread cancel flag is modelled by the (latched) index
  of the first loop checkpoint at which the background thread reads it as
  set, `none` when it is never set during the run.
-/

/-- Python `str.endswith`, modelled on the character lists of the strings. -/
def pyEndswith (s suffix : String) : Bool :=
  suffix.data.isSuffixOf s.data

/-- Exceptions raised by the embedded code paths of `gui.py`. -/
inductive PyError where
  /-- `ValueError` raised by `_build_script_command` (line 203). -/
  | unsupportedFileType
  /-- exception raised by `subprocess.Popen` (line 254), e.g. a missing
  interpreter or permission failure. -/
  | spawnError
  /-- exception raised while iterating `p.stdout` (line 263). -/
  | streamError
  /-- `FileNotFoundError` raised by `run_script` (line 216). -/
  | fileNotFound
deriving DecidableEq

/-- Embeds `BasicGUI._build_script_command` (gui.py lines 190-206): the
extension dispatch on `filename`, then the selected input file `fileArg`
(`self._file_arg`) appended last when one is set. -/
def build_script_command (filename : String) (fileArg : Option String) :
    Except PyError (List String) :=
  if pyEndswith filename ".py" || pyEndswith filename ".pyc" then
    Except.ok (["python", "-u", filename] ++ fileArg.toList)
  else if pyEndswith filename ".exe" then
    Except.ok ([filename] ++ fileArg.toList)
  else if pyEndswith filename ".sh" then
    Except.ok (["bash", filename] ++ fileArg.toList)
  else
    Except.error PyError.unsupportedFileType

/-- Observable actions of the run body, in program order. -/
inductive GuiEvent where
  /-- `_update_status` (lines 152-163): each argument updates its label only
  when present. -/
  | statusEv (label : Option String) (elapsed : Option Nat)
  /-- clearing the output text widget (line 248). -/
  | clearText
  /-- `subprocess.Popen(cmd, ...)` succeeding (line 254). -/
  | spawnEv (cmd : List String)
  /-- `write_line` (lines 178-188) appending one line of output. -/
  | outputLine (s : String)
  /-- `p.terminate()` (line 268). -/
  | terminateEv
  /-- `Popen.__exit__`: the pipe is closed and the child reaped when the
  `with` block at line 254 is left on any path. -/
  | release
  /-- configuring the Run button state (lines 260, 276). -/
  | runButton (enabled : Bool)
  /-- configuring the Cancel button state (line 261). -/
  | cancelButton (enabled : Bool)
  /-- wiring the Run button to the run body (line 279). -/
  | wireRun
  /-- entering `tkinter` `mainloop` (line 282). -/
  | mainloop
deriving DecidableEq

/-- The GUI state projected onto the fields the supervision logic touches. -/
structure Gui where
  statusLabel : String
  timeElapsed : Option Nat
  outputText : List String
  runButtonEnabled : Bool
  cancelButtonEnabled : Bool
  cancelPressed : Bool
  fileArg : Option String
deriving DecidableEq

/-- How each observable action updates the projected GUI state. -/
def applyEvent (g : Gui) (e : GuiEvent) : Gui :=
  match e with
  | GuiEvent.statusEv lbl t =>
      let g1 := match lbl with
        | some s => { g with statusLabel := s }
        | none => g
      match t with
        | some n => { g1 with timeElapsed := some n }
        | none => g1
  | GuiEvent.clearText => { g with outputText := [] }
  | GuiEvent.outputLine s => { g with outputText := g.outputText ++ [s] }
  | GuiEvent.runButton b => { g with runButtonEnabled := b }
  | GuiEvent.cancelButton b => { g with cancelButtonEnabled := b }
  | _ => g

/-- One result of reading the child's merged stdout/stderr pipe. -/
inductive ReadResult where
  | line (s : String)
  | readError
deriving DecidableEq

/-- The child process's observable behaviour for one run. -/
structure ChildBehavior where
  /-- whether `subprocess.Popen` succeeds. -/
  spawnOk : Bool
  /-- the successive results of reading the pipe. -/
  reads : List ReadResult
  /-- the exit code reported by `p.poll()` at end-of-stream. -/
  exitCode : Int
  /-- the value `p.poll()` (line 272) returns when the read loop ended via
  the cancellation `break`: `none` while the child terminated at line 268
  has not yet been reaped, or its exit code once it has. -/
  pollAfterCancel : Option Int
deriving DecidableEq

/-- Whether the background thread reads `self._cancel_pressed` as set at the
checkpoint (line 267) following the line with index `i`. The flag is latched:
once set it stays set, so the schedule is the index of the first checkpoint
that observes it. -/
def cancelObserved (cancelFrom : Option Nat) (i : Nat) : Bool :=
  match cancelFrom with
  | none => false
  | some k => decide (k ≤ i)

/-- The synthetic notice appended on cancellation (line 269). -/
def terminatedNotice : String := "Subprocess terminated.\n"

/-- Result of the output-reading loop. -/
structure LoopResult where
  events : List GuiEvent
  /-- the loop ended via the cancellation `break` (line 271). -/
  cancelled : Bool
  /-- the loop ended because a pipe read raised (modelled `StreamError`). -/
  readErr : Bool
  /-- how many lines were fully processed (also the number of per-line
  `time.time()` calls consumed). -/
  linesRead : Nat
deriving DecidableEq

/-- Embeds the output-reading loop of `_run_script` (gui.py lines 263-271):
for each line, `write_line` then `_update_status(time_elapsed=...)`, then the
cancellation checkpoint; `i` is the index of the next line. -/
def streamLoop (cancelFrom : Option Nat) (clock : Nat → Nat) :
    Nat → List ReadResult → LoopResult
  | i, [] => ⟨[], false, false, i⟩
  | i, ReadResult.readError :: _ => ⟨[], false, true, i⟩
  | i, ReadResult.line s :: rest =>
    let evs := [GuiEvent.outputLine s,
                GuiEvent.statusEv none (some (clock (i + 1) - clock 0))]
    if cancelObserved cancelFrom i then
      ⟨evs ++ [GuiEvent.terminateEv, GuiEvent.outputLine terminatedNotice],
        true, false, i + 1⟩
    else
      let r := streamLoop cancelFrom clock (i + 1) rest
      ⟨evs ++ r.events, r.cancelled, r.readErr, r.linesRead⟩

/-- The final exit-status label as computed at gui.py lines 253-273:
`exit_status` starts as `Done` (line 253), the cancellation `break` sets it
to `Halted` (line 270), and the `if p.poll():` check at line 272 overwrites
it with `Error (c)` whenever the poll result `poll` is a non-`None`,
non-zero integer (Python truthiness). -/
def exitStatusOf (cancelled : Bool) (poll : Option Int) : String :=
  let es0 := if cancelled then "Halted" else "Done"
  match poll with
  | some c => if c ≠ 0 then "Error (" ++ toString c ++ ")" else es0
  | none => es0

/-- Embeds the body of `BasicGUI._run_script` (gui.py lines 228-276) after
the cancel-flag reset: the trace of observable actions and the exception (if
any) that escapes the background thread. Program order follows the source:
build the command (line 242; `ValueError` escapes before any status change),
set status `Running` with elapsed `0.0` (line 245), clear the text widget
(line 248), spawn (line 254; a spawn failure escapes after the status was
already set), disable Run / enable Cancel (lines 260-261), read the pipe
(lines 263-271), check `p.poll()` (lines 272-273), leave the `with` block
(release), emit the final status and re-enable Run (lines 275-276). -/
def run_script_thread (filename : String) (fileArg : Option String)
    (child : ChildBehavior) (cancelFrom : Option Nat) (clock : Nat → Nat) :
    List GuiEvent × Option PyError :=
  match build_script_command filename fileArg with
  | Except.error _ => ([], some PyError.unsupportedFileType)
  | Except.ok cmd =>
    let pre := [GuiEvent.statusEv (some "Running") (some 0), GuiEvent.clearText]
    if child.spawnOk then
      let pre2 := pre ++ [GuiEvent.spawnEv cmd, GuiEvent.runButton false,
                          GuiEvent.cancelButton true]
      let lr := streamLoop cancelFrom clock 0 child.reads
      if lr.readErr then
        (pre2 ++ lr.events ++ [GuiEvent.release], some PyError.streamError)
      else
        let exitStatus := exitStatusOf lr.cancelled
          (if lr.cancelled then child.pollAfterCancel else some child.exitCode)
        (pre2 ++ lr.events ++
          [GuiEvent.release,
           GuiEvent.statusEv (some exitStatus)
             (some (clock (lr.linesRead + 1) - clock 0)),
           GuiEvent.runButton true], none)
    else
      (pre, some PyError.spawnError)

/-- One whole run as seen from the GUI state: `self._cancel_pressed = False`
(line 235), then the run body's trace folded over the widget state. -/
def run_gui (g : Gui) (filename : String) (child : ChildBehavior)
    (cancelFrom : Option Nat) (clock : Nat → Nat) : Gui × Option PyError :=
  let r := run_script_thread filename g.fileArg child cancelFrom clock
  (r.1.foldl applyEvent { g with cancelPressed := false }, r.2)

/-- Embeds `BasicGUI._ask_cancel` (gui.py lines 127-135): `response` is the
user's answer to the confirmation dialog; on OK the cancel flag is set. -/
def ask_cancel (g : Gui) (response : Bool) : Gui :=
  if response then { g with cancelPressed := true } else g

/-- Outcome of pressing the Run button. `rejectedAlreadyRunning` exists only
so the spec's claim can be stated; no code path produces it. -/
inductive PressResult where
  | handlerRun
  | ignoredDisabled
  | rejectedAlreadyRunning
deriving DecidableEq

/-- Pressing (or invoking) the Run button: per `tkinter` semantics a button
whose state is `DISABLED` does not fire its command, silently. -/
def invokeRunButton (g : Gui) : Gui × PressResult :=
  if g.runButtonEnabled then (g, PressResult.handlerRun)
  else (g, PressResult.ignoredDisabled)

/-- Embeds `BasicGUI.run_script` (gui.py lines 208-282) up to entering the
event loop: the existence check (lines 215-216) runs first; on success the
optional `requires_input` handling (lines 220-223), then the Run button is
wired (line 279) and `mainloop` entered (line 282). -/
def run_script (existsOnDisk : Bool) (requiresInput : Bool) (g : Gui) :
    List GuiEvent × Except PyError Gui :=
  if existsOnDisk then
    let g1 := if requiresInput then g
      else { g with statusLabel := "Ready", runButtonEnabled := true }
    ((if requiresInput then ([] : List GuiEvent)
      else [GuiEvent.statusEv (some "Ready") none, GuiEvent.runButton true]) ++
      [GuiEvent.wireRun, GuiEvent.mainloop], Except.ok g1)
  else ([], Except.error PyError.fileNotFound)

/-- The GUI state as built by the `BasicGUI` constructor (gui.py lines
40-105): no file selected, Run button disabled, cancel flag clear. -/
def initGui : Gui :=
  { statusLabel := "No file selected."
    timeElapsed := none
    outputText := []
    runButtonEnabled := false
    cancelButtonEnabled := true
    cancelPressed := false
    fileArg := none }

/-- The GUI state passed through mid-run, right after the spawn: the events
of lines 235-261 folded over the pre-run state. -/
def guiMidRun (g : Gui) (cmd : List String) : Gui :=
  ([GuiEvent.statusEv (some "Running") (some 0), GuiEvent.clearText,
    GuiEvent.spawnEv cmd, GuiEvent.runButton false,
    GuiEvent.cancelButton true]).foldl applyEvent
    { g with cancelPressed := false }

/-- The output lines carried by a trace, in order. -/
def outputsOf (tr : List GuiEvent) : List String :=
  tr.filterMap fun e => match e with
    | GuiEvent.outputLine s => some s
    | _ => none

/-- The elapsed times carried by status updates in a trace, in order. -/
def statusElapsedOf (tr : List GuiEvent) : List Nat :=
  tr.filterMap fun e => match e with
    | GuiEvent.statusEv _ (some t) => some t
    | _ => none

/-- Whether an event is an output line. -/
def isOutputEv : GuiEvent → Bool
  | GuiEvent.outputLine _ => true
  | _ => false

/-- Whether an event is a status update. -/
def isStatusEv : GuiEvent → Bool
  | GuiEvent.statusEv _ _ => true
  | _ => false

/-- Whether an event is a per-line status update (elapsed time only). -/
def isLineStatusEv : GuiEvent → Bool
  | GuiEvent.statusEv none (some _) => true
  | _ => false

/-- The subtrace of delivered output lines and status updates. -/
def ioEventsOf (tr : List GuiEvent) : List GuiEvent :=
  tr.filter fun e => isOutputEv e || isStatusEv e

/-- Whether an event spawns the child. -/
def isSpawnEv : GuiEvent → Bool
  | GuiEvent.spawnEv _ => true
  | _ => false

/-- Whether an event releases the child handle and pipe. -/
def isReleaseEv : GuiEvent → Bool
  | GuiEvent.release => true
  | _ => false

/-- The subtrace of process-handle/pipe lifecycle events. -/
def pipeEventsOf (tr : List GuiEvent) : List GuiEvent :=
  tr.filter fun e => isSpawnEv e || isReleaseEv e

/-- Scans a trace keeping a credit of output lines not yet matched by a
per-line status update; `true` iff no per-line status update precedes the
output line it reports on. -/
def statusBalanced : Nat → List GuiEvent → Bool
  | _, [] => true
  | k, e :: rest =>
    if isOutputEv e then statusBalanced (k + 1) rest
    else if isLineStatusEv e then decide (0 < k) && statusBalanced (k - 1) rest
    else statusBalanced k rest

/-- The per-line events produced for a list of lines starting at index `i`. -/
def lineEvts (clock : Nat → Nat) : Nat → List String → List GuiEvent
  | _, [] => []
  | i, s :: rest =>
      GuiEvent.outputLine s ::
      GuiEvent.statusEv none (some (clock (i + 1) - clock 0)) ::
      lineEvts clock (i + 1) rest

/-- The elapsed times reported for `n` consecutive lines starting at index
`i`: `clock (i+1) - clock 0`, `clock (i+2) - clock 0`, .... -/
def elapsedList (clock : Nat → Nat) : Nat → Nat → List Nat
  | _, 0 => []
  | i, n + 1 => (clock (i + 1) - clock 0) :: elapsedList clock (i + 1) n

/-- The events emitted between the status reset and the first pipe read
(gui.py lines 245-261). -/
def preRunEvts (cmd : List String) : List GuiEvent :=
  [GuiEvent.statusEv (some "Running") (some 0), GuiEvent.clearText,
   GuiEvent.spawnEv cmd, GuiEvent.runButton false, GuiEvent.cancelButton true]

/-- The output lines a run is expected to deliver: the child's lines in
emission order, truncated after the first observed cancellation checkpoint
with the synthetic terminated notice appended. -/
def expectedOutputs (lines : List String) (cf : Option Nat) : List String :=
  match cf with
  | none => lines
  | some k =>
      if k < lines.length then lines.take (k + 1) ++ [terminatedNotice]
      else lines

/-! Helper lemmas about the read loop, the produced traces, and the folded
GUI state. -/

theorem cancelObserved_none (i : Nat) : cancelObserved none i = false := rfl

theorem streamLoop_noCancel (cf : Option Nat) (clock : Nat → Nat) :
    ∀ (lines : List String) (i : Nat),
      (∀ j, i ≤ j → j < i + lines.length → cancelObserved cf j = false) →
      streamLoop cf clock i (lines.map ReadResult.line) =
        ⟨lineEvts clock i lines, false, false, i + lines.length⟩ := by
  intro lines
  induction lines with
  | nil => intro i _; simp [streamLoop, lineEvts]
  | cons s rest ih =>
    intro i h
    have hc : cancelObserved cf i = false :=
      h i (Nat.le_refl i) (by simp only [List.length_cons]; omega)
    have ih2 := ih (i + 1)
      (fun j h1 h2 => h j (by omega) (by simp only [List.length_cons]; omega))
    simp only [List.map_cons, streamLoop, hc, Bool.false_eq_true, if_false, ih2]
    simp [lineEvts, LoopResult.mk.injEq]
    omega

theorem streamLoop_cancel (k : Nat) (clock : Nat → Nat) :
    ∀ (lines : List String) (i : Nat), i ≤ k → k - i < lines.length →
      streamLoop (some k) clock i (lines.map ReadResult.line) =
        ⟨lineEvts clock i (lines.take (k - i + 1)) ++
           [GuiEvent.terminateEv, GuiEvent.outputLine terminatedNotice],
         true, false, k + 1⟩ := by
  intro lines
  induction lines with
  | nil => intro i _ h2; simp at h2
  | cons s rest ih =>
    intro i h1 h2
    by_cases hik : k ≤ i
    · have hike : i = k := Nat.le_antisymm h1 hik
      have hc : cancelObserved (some k) i = true := by
        simp [cancelObserved]; omega
      have hki : k - i = 0 := by omega
      simp only [List.map_cons, streamLoop, hc, if_true, hki, List.take_succ_cons,
        List.take_zero, lineEvts, LoopResult.mk.injEq]
      simp [hike]
    · have hc : cancelObserved (some k) i = false := by
        simp [cancelObserved]; omega
      have ih2 := ih (i + 1) (by omega)
        (by simp only [List.length_cons] at h2; omega)
      have hki : k - i + 1 = (k - (i + 1) + 1) + 1 := by omega
      simp only [List.map_cons, streamLoop, hc, Bool.false_eq_true, if_false, ih2]
      simp only [hki, List.take_succ_cons, lineEvts, LoopResult.mk.injEq]
      have harr : k - (i + 1) + 1 = k - i := by omega
      simp [harr]

theorem streamLoop_lines (clock : Nat → Nat) (lines : List String) :
    ∀ cf : Option Nat,
      streamLoop cf clock 0 (lines.map ReadResult.line) =
        match cf with
        | some k =>
          if k < lines.length then
            ⟨lineEvts clock 0 (lines.take (k + 1)) ++
               [GuiEvent.terminateEv, GuiEvent.outputLine terminatedNotice],
             true, false, k + 1⟩
          else ⟨lineEvts clock 0 lines, false, false, lines.length⟩
        | none => ⟨lineEvts clock 0 lines, false, false, lines.length⟩ := by
  intro cf
  match cf with
  | none =>
    have := streamLoop_noCancel none clock lines 0 (fun j _ _ => rfl)
    simpa using this
  | some k =>
    by_cases hk : k < lines.length
    · have := streamLoop_cancel k clock lines 0 (Nat.zero_le k) (by omega)
      simpa [hk] using this
    · have := streamLoop_noCancel (some k) clock lines 0
        (fun j _ h2 => by simp [cancelObserved]; omega)
      simpa [hk] using this

theorem outputsOf_append (a b : List GuiEvent) :
    outputsOf (a ++ b) = outputsOf a ++ outputsOf b := by
  simp [outputsOf]

theorem outputsOf_lineEvts (clock : Nat → Nat) :
    ∀ (lines : List String) (i : Nat),
      outputsOf (lineEvts clock i lines) = lines := by
  intro lines
  induction lines with
  | nil => intro i; simp [lineEvts, outputsOf]
  | cons s rest ih => intro i; simp [lineEvts, outputsOf] at ih ⊢; exact ih (i + 1)

theorem statusElapsedOf_append (a b : List GuiEvent) :
    statusElapsedOf (a ++ b) = statusElapsedOf a ++ statusElapsedOf b := by
  simp [statusElapsedOf]

theorem statusElapsedOf_lineEvts (clock : Nat → Nat) :
    ∀ (lines : List String) (i : Nat),
      statusElapsedOf (lineEvts clock i lines) =
        elapsedList clock i lines.length := by
  intro lines
  induction lines with
  | nil => intro i; simp [lineEvts, statusElapsedOf, elapsedList]
  | cons s rest ih =>
    intro i
    simp only [lineEvts, statusElapsedOf, List.filterMap_cons, List.length_cons,
      elapsedList] at ih ⊢
    simp [ih (i + 1)]

theorem statusLabel_foldl_final (g : Gui) (xs : List GuiEvent) (s : String)
    (t : Nat) :
    ((xs ++ [GuiEvent.release, GuiEvent.statusEv (some s) (some t),
        GuiEvent.runButton true]).foldl applyEvent g).statusLabel = s := by
  simp [List.foldl_append, applyEvent]

theorem statusLabel_foldl_lineEvts (clock : Nat → Nat) :
    ∀ (lines : List String) (i : Nat) (g : Gui),
      ((lineEvts clock i lines).foldl applyEvent g).statusLabel =
        g.statusLabel := by
  intro lines
  induction lines with
  | nil => intro i g; simp [lineEvts]
  | cons s rest ih =>
    intro i g
    simp only [lineEvts, List.foldl_cons]
    rw [ih (i + 1)]
    simp [applyEvent]

theorem count_terminate_lineEvts (clock : Nat → Nat) :
    ∀ (lines : List String) (i : Nat),
      (lineEvts clock i lines).count GuiEvent.terminateEv = 0 := by
  intro lines
  induction lines with
  | nil => intro i; simp [lineEvts]
  | cons s rest ih =>
    intro i
    simp only [lineEvts, List.count_cons]
    rw [ih (i + 1)]
    simp

theorem statusBalanced_lineEvts (clock : Nat → Nat) :
    ∀ (lines : List String) (i k : Nat) (rest : List GuiEvent),
      statusBalanced k (lineEvts clock i lines ++ rest) =
        statusBalanced k rest := by
  intro lines
  induction lines with
  | nil => intro i k rest; simp [lineEvts]
  | cons s rest0 ih =>
    intro i k rest
    have := ih (i + 1) k rest
    simp [lineEvts, statusBalanced, isOutputEv, isLineStatusEv, this]

theorem chain_elapsed (clock : Nat → Nat)
    (hm : ∀ a b, a ≤ b → clock a ≤ clock b) :
    ∀ (n i : Nat),
      List.Chain (· ≤ ·) (clock i - clock 0)
        (elapsedList clock i n ++ [clock (i + n + 1) - clock 0]) := by
  intro n
  induction n with
  | zero =>
    intro i
    simp only [elapsedList, List.nil_append]
    exact List.Chain.cons
      (Nat.sub_le_sub_right (hm i (i + 0 + 1) (by omega)) (clock 0))
      List.Chain.nil
  | succ n ih =>
    intro i
    simp only [elapsedList, List.cons_append]
    refine List.Chain.cons
      (Nat.sub_le_sub_right (hm i (i + 1) (by omega)) (clock 0)) ?_
    have := ih (i + 1)
    have harr : i + 1 + n + 1 = i + (n + 1) + 1 := by omega
    rw [harr] at this
    exact this

theorem mem_elapsedList_le (clock : Nat → Nat)
    (hm : ∀ a b, a ≤ b → clock a ≤ clock b) :
    ∀ (n i x : Nat), x ∈ elapsedList clock i n →
      x ≤ clock (i + n + 1) - clock 0 := by
  intro n
  induction n with
  | zero => intro i x hx; simp [elapsedList] at hx
  | succ n ih =>
    intro i x hx
    simp only [elapsedList, List.mem_cons] at hx
    rcases hx with hx | hx
    · subst hx
      exact Nat.sub_le_sub_right (hm (i + 1) (i + (n + 1) + 1) (by omega)) _
    · have := ih (i + 1) x hx
      have harr : i + 1 + n + 1 = i + (n + 1) + 1 := by omega
      rw [harr] at this
      exact this

theorem suffix_excl (s : String) (a b : List Char)
    (ha : a.isSuffixOf s.data = true)
    (hab : ¬ a <:+ b) (hba : ¬ b <:+ a) : b.isSuffixOf s.data = false := by
  by_contra hcon
  rw [Bool.not_eq_false] at hcon
  rcases List.suffix_or_suffix_of_suffix (List.isSuffixOf_iff_suffix.mp ha)
      (List.isSuffixOf_iff_suffix.mp hcon) with h1 | h1
  · exact hab h1
  · exact hba h1

theorem streamLoop_readError (cf : Option Nat) (clock : Nat → Nat) :
    ∀ (pfx : List String) (rest : List ReadResult) (i : Nat),
      (∀ j, i ≤ j → j < i + pfx.length → cancelObserved cf j = false) →
      streamLoop cf clock i
          (pfx.map ReadResult.line ++ ReadResult.readError :: rest) =
        ⟨lineEvts clock i pfx, false, true, i + pfx.length⟩ := by
  intro pfx
  induction pfx with
  | nil => intro rest i _; simp [streamLoop, lineEvts]
  | cons s p ih =>
    intro rest i h
    have hc : cancelObserved cf i = false :=
      h i (Nat.le_refl i) (by simp only [List.length_cons]; omega)
    have ih2 := ih rest (i + 1)
      (fun j h1 h2 => h j (by omega) (by simp only [List.length_cons]; omega))
    simp only [List.map_cons, List.cons_append, streamLoop, hc,
      Bool.false_eq_true, if_false, List.append_eq, List.nil_append]
    rw [ih2]
    simp [lineEvts, LoopResult.mk.injEq]
    omega

theorem pipeEventsOf_lineEvts (clock : Nat → Nat) :
    ∀ (lines : List String) (i : Nat),
      pipeEventsOf (lineEvts clock i lines) = [] := by
  intro lines
  induction lines with
  | nil => intro i; simp [lineEvts, pipeEventsOf]
  | cons s rest ih =>
    intro i
    simp [lineEvts, pipeEventsOf, isSpawnEv, isReleaseEv] at ih ⊢
    exact ih (i + 1)

theorem pipeEventsOf_streamLoop (cf : Option Nat) (clock : Nat → Nat) :
    ∀ (reads : List ReadResult) (i : Nat),
      pipeEventsOf (streamLoop cf clock i reads).events = [] := by
  intro reads
  induction reads with
  | nil => intro i; simp [streamLoop, pipeEventsOf]
  | cons r rest ih =>
    intro i
    cases r with
    | readError => simp [streamLoop, pipeEventsOf]
    | line s =>
      simp only [streamLoop]
      by_cases hc : cancelObserved cf i = true
      · simp [hc, pipeEventsOf, isSpawnEv, isReleaseEv]
      · rw [Bool.not_eq_true] at hc
        have h2 := ih (i + 1)
        simp only [pipeEventsOf] at h2 ⊢
        simp only [hc, Bool.false_eq_true, if_false, List.filter_append, h2,
          List.append_nil, List.filter_cons]
        simp [isSpawnEv, isReleaseEv]

theorem lineEvts_io_shape (clock : Nat → Nat) :
    ∀ (lines : List String) (i : Nat) (e : GuiEvent),
      e ∈ lineEvts clock i lines → isOutputEv e = true ∨ isStatusEv e = true := by
  intro lines
  induction lines with
  | nil => intro i e he; simp [lineEvts] at he
  | cons s rest ih =>
    intro i e he
    simp only [lineEvts, List.mem_cons] at he
    rcases he with he | he | he
    · subst he; left; rfl
    · subst he; right; rfl
    · exact ih (i + 1) e he

theorem ioEventsOf_lineEvts (clock : Nat → Nat) :
    ∀ (lines : List String) (i : Nat),
      ioEventsOf (lineEvts clock i lines) = lineEvts clock i lines := by
  intro lines i
  apply List.filter_eq_self.mpr
  intro a ha
  rcases lineEvts_io_shape clock lines i a ha with h | h <;> simp [h]

theorem streamLoop_events_shape (cf : Option Nat) (clock : Nat → Nat) :
    ∀ (reads : List ReadResult) (i : Nat) (e : GuiEvent),
      e ∈ (streamLoop cf clock i reads).events →
      isSpawnEv e = false ∧ isReleaseEv e = false := by
  intro reads
  induction reads with
  | nil => intro i e he; simp [streamLoop] at he
  | cons r rest ih =>
    intro i e he
    cases r with
    | readError => simp [streamLoop] at he
    | line s =>
      simp only [streamLoop] at he
      by_cases hc : cancelObserved cf i = true
      · simp only [hc, if_true, List.cons_append, List.nil_append,
          List.mem_cons, List.not_mem_nil, or_false] at he
        rcases he with he | he | he | he <;> subst he <;> exact ⟨rfl, rfl⟩
      · rw [Bool.not_eq_true] at hc
        simp only [hc, Bool.false_eq_true, if_false, List.cons_append,
          List.nil_append, List.mem_cons] at he
        rcases he with he | he | he
        · subst he; exact ⟨rfl, rfl⟩
        · subst he; exact ⟨rfl, rfl⟩
        · exact ih (i + 1) e he

theorem run_thread_eq (filename : String) (arg : Option String)
    (lines : List String) (c : Int) (pc : Option Int) (cf : Option Nat)
    (clock : Nat → Nat) (cmd : List String)
    (hb : build_script_command filename arg = Except.ok cmd) :
    run_script_thread filename arg ⟨true, lines.map ReadResult.line, c, pc⟩
        cf clock =
      (preRunEvts cmd ++
       (streamLoop cf clock 0 (lines.map ReadResult.line)).events ++
       [GuiEvent.release,
        GuiEvent.statusEv
          (some (exitStatusOf
            (streamLoop cf clock 0 (lines.map ReadResult.line)).cancelled
            (if (streamLoop cf clock 0 (lines.map ReadResult.line)).cancelled
              then pc else some c)))
          (some (clock
            ((streamLoop cf clock 0 (lines.map ReadResult.line)).linesRead + 1) -
              clock 0)),
        GuiEvent.runButton true], none) := by
  have hre : (streamLoop cf clock 0 (lines.map ReadResult.line)).readErr = false := by
    rw [streamLoop_lines clock lines cf]
    cases cf with
    | none => rfl
    | some k => by_cases hk : k < lines.length <;> simp [hk]
  simp [run_script_thread, hb, hre, preRunEvts]

theorem run_thread_none_char (filename : String) (arg : Option String)
    (lines : List String) (c : Int) (pc : Option Int) (clock : Nat → Nat)
    (cmd : List String)
    (hb : build_script_command filename arg = Except.ok cmd) :
    run_script_thread filename arg ⟨true, lines.map ReadResult.line, c, pc⟩
        none clock =
      (preRunEvts cmd ++ lineEvts clock 0 lines ++
       [GuiEvent.release,
        GuiEvent.statusEv
          (some (if c ≠ 0 then "Error (" ++ toString c ++ ")" else "Done"))
          (some (clock (lines.length + 1) - clock 0)),
        GuiEvent.runButton true], none) := by
  rw [run_thread_eq filename arg lines c pc none clock cmd hb]
  rw [streamLoop_lines clock lines none]
  rfl

theorem run_thread_cancel_char (filename : String) (arg : Option String)
    (lines : List String) (c : Int) (pc : Option Int) (k : Nat)
    (clock : Nat → Nat) (cmd : List String)
    (hb : build_script_command filename arg = Except.ok cmd)
    (hk : k < lines.length) :
    run_script_thread filename arg ⟨true, lines.map ReadResult.line, c, pc⟩
        (some k) clock =
      (preRunEvts cmd ++
       (lineEvts clock 0 (lines.take (k + 1)) ++
        [GuiEvent.terminateEv, GuiEvent.outputLine terminatedNotice]) ++
       [GuiEvent.release,
        GuiEvent.statusEv (some (exitStatusOf true pc))
          (some (clock (k + 1 + 1) - clock 0)),
        GuiEvent.runButton true], none) := by
  rw [run_thread_eq filename arg lines c pc (some k) clock cmd hb]
  rw [streamLoop_lines clock lines (some k)]
  simp [hk]

theorem run_thread_late_char (filename : String) (arg : Option String)
    (lines : List String) (c : Int) (pc : Option Int) (k : Nat)
    (clock : Nat → Nat) (cmd : List String)
    (hb : build_script_command filename arg = Except.ok cmd)
    (hk : ¬ k < lines.length) :
    run_script_thread filename arg ⟨true, lines.map ReadResult.line, c, pc⟩
        (some k) clock =
      (preRunEvts cmd ++ lineEvts clock 0 lines ++
       [GuiEvent.release,
        GuiEvent.statusEv
          (some (if c ≠ 0 then "Error (" ++ toString c ++ ")" else "Done"))
          (some (clock (lines.length + 1) - clock 0)),
        GuiEvent.runButton true], none) := by
  rw [run_thread_eq filename arg lines c pc (some k) clock cmd hb]
  rw [streamLoop_lines clock lines (some k)]
  simp [hk, exitStatusOf]

/-! Claim theorems. -/

/-- C2: the command built by `_build_script_command` is a deterministic
function of the filename extension: `.py`/`.pyc` files run as
`python -u filename`, `.exe` files run directly, `.sh` files run via
`bash`, in every case with the selected input file appended last when one
is set; any other extension raises the unsupported-file-type `ValueError`
and the run body emits no events at all, so no process is spawned. -/
theorem buildCommand_extension_table (filename : String) (arg : Option String) :
    ((pyEndswith filename ".py" = true ∨ pyEndswith filename ".pyc" = true) →
      build_script_command filename arg =
        Except.ok (["python", "-u", filename] ++ arg.toList)) ∧
    (pyEndswith filename ".exe" = true →
      build_script_command filename arg =
        Except.ok ([filename] ++ arg.toList)) ∧
    (pyEndswith filename ".sh" = true →
      build_script_command filename arg =
        Except.ok (["bash", filename] ++ arg.toList)) ∧
    (pyEndswith filename ".py" = false → pyEndswith filename ".pyc" = false →
      pyEndswith filename ".exe" = false → pyEndswith filename ".sh" = false →
      build_script_command filename arg =
          Except.error PyError.unsupportedFileType ∧
      ∀ (child : ChildBehavior) (cf : Option Nat) (clock : Nat → Nat),
        run_script_thread filename arg child cf clock =
          ([], some PyError.unsupportedFileType)) := by
  refine ⟨?_, ?_, ?_, ?_⟩
  · rintro (h | h) <;> simp [build_script_command, h]
  · intro h
    have h1 : pyEndswith filename ".py" = false :=
      suffix_excl filename ".exe".data ".py".data h (by decide) (by decide)
    have h2 : pyEndswith filename ".pyc" = false :=
      suffix_excl filename ".exe".data ".pyc".data h (by decide) (by decide)
    simp [build_script_command, h, h1, h2]
  · intro h
    have h1 : pyEndswith filename ".py" = false :=
      suffix_excl filename ".sh".data ".py".data h (by decide) (by decide)
    have h2 : pyEndswith filename ".pyc" = false :=
      suffix_excl filename ".sh".data ".pyc".data h (by decide) (by decide)
    have h3 : pyEndswith filename ".exe" = false :=
      suffix_excl filename ".sh".data ".exe".data h (by decide) (by decide)
    simp [build_script_command, h, h1, h2, h3]
  · intro h1 h2 h3 h4
    have hb : build_script_command filename arg =
        Except.error PyError.unsupportedFileType := by
      simp [build_script_command, h1, h2, h3, h4]
    exact ⟨hb, fun child cf clock => by simp [run_script_thread, hb]⟩

/-- C2 witness: the extension table evaluated at one concrete filename of
each kind. -/
theorem buildCommand_extension_table_witness :
    build_script_command "a.py" (some "in.xml") =
      Except.ok (["python", "-u", "a.py"] ++ (some "in.xml").toList) ∧
    build_script_command "b.exe" (some "in.xml") =
      Except.ok (["b.exe"] ++ (some "in.xml").toList) ∧
    build_script_command "c.sh" none =
      Except.ok (["bash", "c.sh"] ++ (none : Option String).toList) ∧
    build_script_command "d.txt" none =
      Except.error PyError.unsupportedFileType :=
  ⟨(buildCommand_extension_table "a.py" (some "in.xml")).1 (Or.inl (by decide)),
   (buildCommand_extension_table "b.exe" (some "in.xml")).2.1 (by decide),
   (buildCommand_extension_table "c.sh" none).2.2.1 (by decide),
   ((buildCommand_extension_table "d.txt" none).2.2.2 (by decide) (by decide)
      (by decide) (by decide)).1⟩

/-- C10: for a filename that does not exist on disk, `run_script` raises
`FileNotFoundError` straight away: no event is emitted — in particular the
Run button is not wired, the event loop is not entered and nothing is
spawned. -/
theorem runScript_missing_file (requiresInput : Bool) (g : Gui) :
    run_script false requiresInput g =
      ([], Except.error PyError.fileNotFound) := by
  simp [run_script]

/-- C9: on every exit path of the run body — normal completion, non-zero
exit, cancellation, pipe read failure — the spawn of the child is matched
by exactly one release of its handle and pipe (leaving the `with` block),
in that order; when nothing was spawned (unsupported extension or spawn
failure) there is nothing to release. -/
theorem handle_released_every_path (filename : String) (arg : Option String)
    (child : ChildBehavior) (cf : Option Nat) (clock : Nat → Nat) :
    pipeEventsOf (run_script_thread filename arg child cf clock).1 = [] ∨
    ∃ cmd, build_script_command filename arg = Except.ok cmd ∧
      pipeEventsOf (run_script_thread filename arg child cf clock).1 =
        [GuiEvent.spawnEv cmd, GuiEvent.release] := by
  cases hb : build_script_command filename arg with
  | error e => left; simp [run_script_thread, hb, pipeEventsOf]
  | ok cmd =>
    cases hs : child.spawnOk with
    | false =>
      left
      simp [run_script_thread, hb, hs, pipeEventsOf, isSpawnEv, isReleaseEv]
    | true =>
      right
      refine ⟨cmd, rfl, ?_⟩
      have hp := pipeEventsOf_streamLoop cf clock child.reads 0
      simp only [pipeEventsOf] at hp ⊢
      cases hre : (streamLoop cf clock 0 child.reads).readErr with
      | true =>
        simp [run_script_thread, hb, hs, hre, List.filter_append, hp,
          isSpawnEv, isReleaseEv]
        intro a ha
        exact streamLoop_events_shape cf clock child.reads 0 a ha
      | false =>
        simp [run_script_thread, hb, hs, hre, List.filter_append, hp,
          isSpawnEv, isReleaseEv]
        intro a ha
        exact streamLoop_events_shape cf clock child.reads 0 a ha

/-- C5 counterexample: pressing Run while a run is in progress yields no
`AlreadyRunning` rejection: at a concrete mid-run state the press is
silently ignored (`ignoredDisabled`, the disabled button does not fire),
which is not the claimed rejection outcome — the code defines no such
error value at all. -/
theorem start_while_running_counterexample :
    (invokeRunButton (guiMidRun initGui ["python", "-u", "a.py"])).2 =
      PressResult.ignoredDisabled ∧
    PressResult.ignoredDisabled ≠ PressResult.rejectedAlreadyRunning := by
  exact ⟨rfl, by decide⟩

/-- C5 (amended): while the child is running — from right after the spawn
(line 260) until the final re-enable (line 276) — the Run button is
disabled, so a press is silently ignored rather than rejected with an
error: the handler does not run, the GUI state is unchanged, and no second
process is spawned; every spawned run's trace starts with exactly the
events leading into this mid-run state. -/
theorem start_while_running_ignored (g : Gui) (cmd : List String) :
    invokeRunButton (guiMidRun g cmd) =
      (guiMidRun g cmd, PressResult.ignoredDisabled) ∧
    (guiMidRun g cmd).runButtonEnabled = false ∧
    (∀ (filename : String) (child : ChildBehavior) (cf : Option Nat)
        (clock : Nat → Nat),
        build_script_command filename g.fileArg = Except.ok cmd →
        child.spawnOk = true →
        ∃ tail, (run_script_thread filename g.fileArg child cf clock).1 =
          preRunEvts cmd ++ tail) := by
  refine ⟨rfl, rfl, ?_⟩
  intro filename child cf clock hb hs
  cases hre : (streamLoop cf clock 0 child.reads).readErr with
  | true =>
    exact ⟨(streamLoop cf clock 0 child.reads).events ++ [GuiEvent.release],
      by simp [run_script_thread, hb, hs, hre, preRunEvts]⟩
  | false =>
    exact ⟨(streamLoop cf clock 0 child.reads).events ++
      [GuiEvent.release,
       GuiEvent.statusEv
         (some (exitStatusOf (streamLoop cf clock 0 child.reads).cancelled
           (if (streamLoop cf clock 0 child.reads).cancelled
             then child.pollAfterCancel else some child.exitCode)))
         (some (clock ((streamLoop cf clock 0 child.reads).linesRead + 1) -
           clock 0)),
       GuiEvent.runButton true],
      by simp [run_script_thread, hb, hs, hre, preRunEvts]⟩

/-- C5 witness: the amended behaviour at a concrete mid-run state and a
concrete spawned run. -/
theorem start_while_running_ignored_witness :
    invokeRunButton (guiMidRun initGui ["python", "-u", "a.py"]) =
      (guiMidRun initGui ["python", "-u", "a.py"],
        PressResult.ignoredDisabled) ∧
    ∃ tail, (run_script_thread "a.py" none ⟨true, [], 0, none⟩ none
        (fun n => n)).1 =
      preRunEvts ["python", "-u", "a.py"] ++ tail :=
  ⟨(start_while_running_ignored initGui ["python", "-u", "a.py"]).1,
   (start_while_running_ignored initGui ["python", "-u", "a.py"]).2.2 "a.py"
     ⟨true, [], 0, none⟩ none (fun n => n) rfl rfl⟩

theorem error_label_ne_running (c : Int) :
    "Error (" ++ toString c ++ ")" ≠ "Running" := by
  intro hcon
  have hlen := congrArg String.length hcon
  rw [String.length_append, String.length_append] at hlen
  have h1 : "Error (".length = 7 := rfl
  have h2 : ")".length = 1 := rfl
  have h3 : "Running".length = 7 := rfl
  omega

/-- C3 (amended): in a run with no cancellation, the exit-code check at
lines 272-273 maps exit code `0` to the default final label `Done` and a
non-zero exit code `c` to the final label `Error (c)` — with a space before
the parenthesis, as the f-string at line 273 formats it — and the thread
ends without an exception. -/
theorem exit_code_mapping (g : Gui) (filename : String) (lines : List String)
    (c : Int) (pc : Option Int) (clock : Nat → Nat) (cmd : List String)
    (hb : build_script_command filename g.fileArg = Except.ok cmd) :
    ((c = 0 →
      (run_gui g filename ⟨true, lines.map ReadResult.line, c, pc⟩ none
          clock).1.statusLabel = "Done") ∧
     (c ≠ 0 →
      (run_gui g filename ⟨true, lines.map ReadResult.line, c, pc⟩ none
          clock).1.statusLabel = "Error (" ++ toString c ++ ")")) ∧
    (run_gui g filename ⟨true, lines.map ReadResult.line, c, pc⟩ none
        clock).2 = none := by
  have hc := run_thread_none_char filename g.fileArg lines c pc clock cmd hb
  refine ⟨⟨?_, ?_⟩, ?_⟩
  · intro h0
    simp only [run_gui, hc]
    rw [statusLabel_foldl_final]
    simp [h0]
  · intro h0
    simp only [run_gui, hc]
    rw [statusLabel_foldl_final]
    simp [h0]
  · simp [run_gui, hc]

/-- C3 counterexample: a child that exits with code 3 in a cancel-free run
ends with the final label `Error (3)` — the f-string at line 273 puts a
space between `Error` and the parenthesised code — which differs from the
claimed label `Error(3)`. -/
theorem exit_code_label_counterexample :
    (run_gui initGui "a.py" ⟨true, [ReadResult.line "x\n"], 3, none⟩ none
        (fun n => n)).1.statusLabel = "Error (3)" ∧
    "Error (3)" ≠ "Error(3)" := by
  exact ⟨rfl, by decide⟩

/-- C3 witness: the amended exit-code mapping at two concrete runs. -/
theorem exit_code_mapping_witness :
    (run_gui initGui "a.py" ⟨true, [ReadResult.line "x\n"], 0, none⟩ none
        (fun n => n)).1.statusLabel = "Done" ∧
    (run_gui initGui "a.py" ⟨true, [ReadResult.line "x\n"], 3, none⟩ none
        (fun n => n)).1.statusLabel = "Error (" ++ toString (3 : Int) ++ ")" :=
  ⟨(exit_code_mapping initGui "a.py" ["x\n"] 0 none (fun n => n)
      ["python", "-u", "a.py"] rfl).1.1 rfl,
   (exit_code_mapping initGui "a.py" ["x\n"] 3 none (fun n => n)
      ["python", "-u", "a.py"] rfl).1.2 (by decide)⟩

/-- C1 counterexample: a run of a valid `.py` file whose spawn fails raises
out of the background thread after the status was already set to `Running`:
the run ends in failure (`spawnError`) with the status label still reading
`Running`, so not every failure surfaces as a terminal status label. -/
theorem running_stuck_counterexample :
    (run_gui initGui "a.py" ⟨false, [], 0, none⟩ none
        (fun n => n)).1.statusLabel = "Running" ∧
    (run_gui initGui "a.py" ⟨false, [], 0, none⟩ none (fun n => n)).2 =
      some PyError.spawnError := by
  exact ⟨rfl, rfl⟩

/-- C1 (amended): failures observed by the read loop do surface — every
spawned run that reads its lines to the end or to a cancellation finishes
with a terminal status label (`Done`, `Halted` or `Error (c)`), never
`Running`, and without an exception — but a spawn failure or a pipe read
failure raises out of the background thread after the status was set to
`Running`, leaving the label `Running` with no terminal status, and an
unsupported file type raises before any status change, leaving the whole
pre-run GUI state untouched (apart from the cancel-flag reset). -/
theorem failure_surfacing_amended :
    (∀ (g : Gui) (filename : String) (lines : List String) (c : Int)
        (pc : Option Int) (cf : Option Nat) (clock : Nat → Nat)
        (cmd : List String),
      build_script_command filename g.fileArg = Except.ok cmd →
      (run_gui g filename ⟨true, lines.map ReadResult.line, c, pc⟩ cf
          clock).1.statusLabel ≠ "Running" ∧
      (run_gui g filename ⟨true, lines.map ReadResult.line, c, pc⟩ cf
          clock).2 = none) ∧
    (∀ (g : Gui) (filename : String) (reads : List ReadResult) (c : Int)
        (pc : Option Int) (cf : Option Nat) (clock : Nat → Nat)
        (cmd : List String),
      build_script_command filename g.fileArg = Except.ok cmd →
      (run_gui g filename ⟨false, reads, c, pc⟩ cf clock).1.statusLabel =
        "Running" ∧
      (run_gui g filename ⟨false, reads, c, pc⟩ cf clock).2 =
        some PyError.spawnError) ∧
    (∀ (g : Gui) (filename : String) (pfx : List String)
        (rest : List ReadResult) (c : Int) (pc : Option Int)
        (clock : Nat → Nat) (cmd : List String),
      build_script_command filename g.fileArg = Except.ok cmd →
      (run_gui g filename
          ⟨true, pfx.map ReadResult.line ++ ReadResult.readError :: rest, c,
            pc⟩ none clock).1.statusLabel = "Running" ∧
      (run_gui g filename
          ⟨true, pfx.map ReadResult.line ++ ReadResult.readError :: rest, c,
            pc⟩ none clock).2 = some PyError.streamError) ∧
    (∀ (g : Gui) (filename : String) (child : ChildBehavior) (cf : Option Nat)
        (clock : Nat → Nat),
      build_script_command filename g.fileArg =
          Except.error PyError.unsupportedFileType →
      (run_gui g filename child cf clock).1 =
        { g with cancelPressed := false } ∧
      (run_gui g filename child cf clock).2 =
        some PyError.unsupportedFileType) := by
  refine ⟨?_, ?_, ?_, ?_⟩
  · intro g filename lines c pc cf clock cmd hb
    rcases cf with _ | k
    · have hc := run_thread_none_char filename g.fileArg lines c pc clock
        cmd hb
      constructor
      · simp only [run_gui, hc]
        rw [statusLabel_foldl_final]
        by_cases h0 : c = 0
        · simp [h0]
        · simp only [h0, ne_eq, not_false_eq_true, if_true]
          exact error_label_ne_running c
      · simp [run_gui, hc]
    · by_cases hk : k < lines.length
      · have hc := run_thread_cancel_char filename g.fileArg lines c pc k
          clock cmd hb hk
        constructor
        · simp only [run_gui, hc]
          rw [statusLabel_foldl_final]
          rcases pc with _ | c2
          · simp only [exitStatusOf]
            decide
          · by_cases h2 : c2 = 0
            · subst h2
              simp only [exitStatusOf]
              decide
            · simp only [exitStatusOf]
              rw [if_pos h2]
              exact error_label_ne_running c2
        · simp [run_gui, hc]
      · have hc := run_thread_late_char filename g.fileArg lines c pc k clock
          cmd hb hk
        constructor
        · simp only [run_gui, hc]
          rw [statusLabel_foldl_final]
          by_cases h0 : c = 0
          · simp [h0]
          · simp only [h0, ne_eq, not_false_eq_true, if_true]
            exact error_label_ne_running c
        · simp [run_gui, hc]
  · intro g filename reads c pc cf clock cmd hb
    constructor
    · simp [run_gui, run_script_thread, hb, applyEvent]
    · simp [run_gui, run_script_thread, hb]
  · intro g filename pfx rest c pc clock cmd hb
    have hsl := streamLoop_readError none clock pfx rest 0 (fun j _ _ => rfl)
    have key : ∀ g0 : Gui,
        ((([GuiEvent.statusEv (some "Running") (some 0), GuiEvent.clearText,
            GuiEvent.spawnEv cmd, GuiEvent.runButton false,
            GuiEvent.cancelButton true] ++
           (lineEvts clock 0 pfx ++ [GuiEvent.release])).foldl applyEvent
            g0)).statusLabel = "Running" := by
      intro g0
      rw [List.foldl_append, List.foldl_append]
      simp [applyEvent, statusLabel_foldl_lineEvts]
    constructor
    · simpa [run_gui, run_script_thread, hb, hsl] using
        key { g with cancelPressed := false }
    · simp [run_gui, run_script_thread, hb, hsl]
  · intro g filename child cf clock hb
    constructor <;> simp [run_gui, run_script_thread, hb]

/-- C1 witness: each amended case at a concrete run. -/
theorem failure_surfacing_amended_witness :
    (run_gui initGui "a.py" ⟨true, [ReadResult.line "x\n"], 0, none⟩ none
        (fun n => n)).1.statusLabel ≠ "Running" ∧
    (run_gui initGui "a.py" ⟨false, [], 0, none⟩ none
        (fun n => n)).1.statusLabel = "Running" ∧
    (run_gui initGui "a.py" ⟨true, [ReadResult.readError], 0, none⟩ none
        (fun n => n)).1.statusLabel = "Running" ∧
    (run_gui initGui "bad.txt" ⟨true, [], 0, none⟩ none (fun n => n)).2 =
      some PyError.unsupportedFileType :=
  ⟨(failure_surfacing_amended.1 initGui "a.py" ["x\n"] 0 none none
      (fun n => n) ["python", "-u", "a.py"] rfl).1,
   (failure_surfacing_amended.2.1 initGui "a.py" [] 0 none none (fun n => n)
      ["python", "-u", "a.py"] rfl).1,
   (failure_surfacing_amended.2.2.1 initGui "a.py" [] [] 0 none (fun n => n)
      ["python", "-u", "a.py"] rfl).1,
   (failure_surfacing_amended.2.2.2 initGui "bad.txt" ⟨true, [], 0, none⟩
      none (fun n => n) rfl).2⟩

/-- C4 counterexample: the claimed final label `Halted` can be overwritten:
in a concrete cancelled run whose terminated child has already been reaped
when line 272 re-polls (the poll returns `-15`, the SIGTERM exit code), the
`if p.poll():` check replaces `Halted` and the run ends with the final
label `Error (-15)`. -/
theorem cancel_halted_counterexample :
    (run_gui initGui "a.py"
        ⟨true, [ReadResult.line "line1\n", ReadResult.line "line2\n"], 0,
          some (-15)⟩ (some 0) (fun n => n)).1.statusLabel = "Error (-15)" ∧
    "Error (-15)" ≠ "Halted" := by
  exact ⟨rfl, by decide⟩

/-- C4 (amended): when the cancel flag is set during the run and first
observed at the checkpoint after line `k` (with more lines still to come),
the runner emits the lines up to and including line `k`, issues exactly one
terminate to the child, appends exactly one synthetic terminated notice as
the last output, reads no further child output, and the thread ends without
an exception; the final label is `Halted` when the poll at line 272 still
returns `None` (or `0`), but when the terminated child is reaped before
that check the poll returns its non-zero exit code `e` and line 273
overwrites the label to `Error (e)`. -/
theorem cancel_mid_stream (g : Gui) (filename : String) (lines : List String)
    (c : Int) (pc : Option Int) (k : Nat) (clock : Nat → Nat)
    (cmd : List String)
    (hb : build_script_command filename g.fileArg = Except.ok cmd)
    (hk : k < lines.length) :
    outputsOf (run_script_thread filename g.fileArg
        ⟨true, lines.map ReadResult.line, c, pc⟩ (some k) clock).1 =
      lines.take (k + 1) ++ [terminatedNotice] ∧
    (run_script_thread filename g.fileArg
        ⟨true, lines.map ReadResult.line, c, pc⟩
        (some k) clock).1.count GuiEvent.terminateEv = 1 ∧
    (run_gui g filename ⟨true, lines.map ReadResult.line, c, pc⟩ (some k)
        clock).2 = none ∧
    (pc = none →
      (run_gui g filename ⟨true, lines.map ReadResult.line, c, pc⟩ (some k)
          clock).1.statusLabel = "Halted") ∧
    (pc = some 0 →
      (run_gui g filename ⟨true, lines.map ReadResult.line, c, pc⟩ (some k)
          clock).1.statusLabel = "Halted") ∧
    (∀ e : Int, e ≠ 0 → pc = some e →
      (run_gui g filename ⟨true, lines.map ReadResult.line, c, pc⟩ (some k)
          clock).1.statusLabel = "Error (" ++ toString e ++ ")") := by
  have hc := run_thread_cancel_char filename g.fileArg lines c pc k clock
    cmd hb hk
  refine ⟨?_, ?_, ?_, ?_, ?_, ?_⟩
  · rw [hc]
    have ho := outputsOf_lineEvts clock (lines.take (k + 1)) 0
    simp only [outputsOf] at ho ⊢
    simp [preRunEvts, ho]
  · rw [hc]
    have hcnt := count_terminate_lineEvts clock (lines.take (k + 1)) 0
    simp [preRunEvts, List.count_append, hcnt]
  · simp [run_gui, hc]
  · intro hpc
    subst hpc
    simp only [run_gui, hc]
    rw [statusLabel_foldl_final]
    rfl
  · intro hpc
    subst hpc
    simp only [run_gui, hc]
    rw [statusLabel_foldl_final]
    decide
  · intro e he hpc
    subst hpc
    simp only [run_gui, hc]
    rw [statusLabel_foldl_final]
    simp only [exitStatusOf]
    rw [if_pos he]

/-- C4 witness: two concrete cancelled runs — one where the poll at line
272 still returns `None` (label `Halted`) and one where the terminated
child was already reaped (label `Error (-15)`). -/
theorem cancel_mid_stream_witness :
    outputsOf (run_script_thread "a.py" initGui.fileArg
        ⟨true, [ReadResult.line "line1\n", ReadResult.line "line2\n"], 0,
          none⟩ (some 0) (fun n => n)).1 = ["line1\n"] ++ [terminatedNotice] ∧
    (run_script_thread "a.py" initGui.fileArg
        ⟨true, [ReadResult.line "line1\n", ReadResult.line "line2\n"], 0,
          none⟩ (some 0) (fun n => n)).1.count GuiEvent.terminateEv = 1 ∧
    (run_gui initGui "a.py"
        ⟨true, [ReadResult.line "line1\n", ReadResult.line "line2\n"], 0,
          none⟩ (some 0) (fun n => n)).1.statusLabel = "Halted" ∧
    (run_gui initGui "a.py"
        ⟨true, [ReadResult.line "line1\n", ReadResult.line "line2\n"], 0,
          some (-15)⟩ (some 0) (fun n => n)).1.statusLabel =
      "Error (" ++ toString (-15 : Int) ++ ")" :=
  ⟨(cancel_mid_stream initGui "a.py" ["line1\n", "line2\n"] 0 none 0
      (fun n => n) ["python", "-u", "a.py"] rfl (by decide)).1,
   (cancel_mid_stream initGui "a.py" ["line1\n", "line2\n"] 0 none 0
      (fun n => n) ["python", "-u", "a.py"] rfl (by decide)).2.1,
   (cancel_mid_stream initGui "a.py" ["line1\n", "line2\n"] 0 none 0
      (fun n => n) ["python", "-u", "a.py"] rfl (by decide)).2.2.2.1 rfl,
   (cancel_mid_stream initGui "a.py" ["line1\n", "line2\n"] 0 (some (-15)) 0
      (fun n => n) ["python", "-u", "a.py"] rfl (by decide)).2.2.2.2.2 (-15)
      (by decide) rfl⟩

/-- C7 counterexample: the claimed single `Terminated` outcome can fail to
appear at all: in a concrete cancelled run — with exactly one termination
request issued — the terminated child is reaped before the line-272 poll,
and the single final outcome is reported as `Error (-15)` rather than the
`Terminated` label `Halted`. -/
theorem cancel_outcome_counterexample :
    (run_gui initGui "b.sh" ⟨true, [ReadResult.line "a\n"], 0, some (-15)⟩
        (some 0) (fun n => n)).1.statusLabel = "Error (-15)" ∧
    "Error (-15)" ≠ "Halted" ∧
    (run_script_thread "b.sh" initGui.fileArg
        ⟨true, [ReadResult.line "a\n"], 0, some (-15)⟩ (some 0)
        (fun n => n)).1.count GuiEvent.terminateEv = 1 := by
  exact ⟨rfl, by decide, by decide⟩

/-- C7 (amended): a second confirmed cancel dialog (or any further answer)
after the flag is already set leaves the GUI state exactly as after the
first confirmation; a run whose cancellation is observed issues exactly one
termination request and appends exactly one synthetic notice; its single
final outcome carries the label `Halted` when the post-terminate poll at
line 272 still returns `None`, but is reported as `Error (e)` when the
terminated child was reaped first. -/
theorem request_cancel_idempotent (g : Gui) (filename : String)
    (lines : List String) (c : Int) (pc : Option Int) (k : Nat)
    (clock : Nat → Nat) (cmd : List String)
    (hb : build_script_command filename g.fileArg = Except.ok cmd)
    (hk : k < lines.length) :
    (∀ (g2 : Gui) (r2 : Bool),
      ask_cancel (ask_cancel g2 true) r2 = ask_cancel g2 true) ∧
    (run_script_thread filename g.fileArg
        ⟨true, lines.map ReadResult.line, c, pc⟩
        (some k) clock).1.count GuiEvent.terminateEv = 1 ∧
    outputsOf (run_script_thread filename g.fileArg
        ⟨true, lines.map ReadResult.line, c, pc⟩ (some k) clock).1 =
      lines.take (k + 1) ++ [terminatedNotice] ∧
    (pc = none →
      (run_gui g filename ⟨true, lines.map ReadResult.line, c, pc⟩ (some k)
          clock).1.statusLabel = "Halted") ∧
    (∀ e : Int, e ≠ 0 → pc = some e →
      (run_gui g filename ⟨true, lines.map ReadResult.line, c, pc⟩ (some k)
          clock).1.statusLabel = "Error (" ++ toString e ++ ")") := by
  have hc := run_thread_cancel_char filename g.fileArg lines c pc k clock
    cmd hb hk
  refine ⟨?_, ?_, ?_, ?_, ?_⟩
  · intro g2 r2
    cases r2 <;> simp [ask_cancel]
  · rw [hc]
    have hcnt := count_terminate_lineEvts clock (lines.take (k + 1)) 0
    simp [preRunEvts, List.count_append, hcnt]
  · rw [hc]
    have ho := outputsOf_lineEvts clock (lines.take (k + 1)) 0
    simp only [outputsOf] at ho ⊢
    simp [preRunEvts, ho]
  · intro hpc
    subst hpc
    simp only [run_gui, hc]
    rw [statusLabel_foldl_final]
    rfl
  · intro e he hpc
    subst hpc
    simp only [run_gui, hc]
    rw [statusLabel_foldl_final]
    simp only [exitStatusOf]
    rw [if_pos he]

/-- C7 witness: idempotence, single terminate, single notice, and both
poll cases at concrete cancelled runs. -/
theorem request_cancel_idempotent_witness :
    ask_cancel (ask_cancel initGui true) true = ask_cancel initGui true ∧
    (run_script_thread "a.py" initGui.fileArg
        ⟨true, [ReadResult.line "x\n"], 0, none⟩ (some 0)
        (fun n => n)).1.count GuiEvent.terminateEv = 1 ∧
    (run_gui initGui "a.py" ⟨true, [ReadResult.line "x\n"], 0, none⟩
        (some 0) (fun n => n)).1.statusLabel = "Halted" ∧
    (run_gui initGui "a.py" ⟨true, [ReadResult.line "x\n"], 0, some (-9)⟩
        (some 0) (fun n => n)).1.statusLabel =
      "Error (" ++ toString (-9 : Int) ++ ")" :=
  ⟨(request_cancel_idempotent initGui "a.py" ["x\n"] 0 none 0 (fun n => n)
      ["python", "-u", "a.py"] rfl (by decide)).1 initGui true,
   (request_cancel_idempotent initGui "a.py" ["x\n"] 0 none 0 (fun n => n)
      ["python", "-u", "a.py"] rfl (by decide)).2.1,
   (request_cancel_idempotent initGui "a.py" ["x\n"] 0 none 0 (fun n => n)
      ["python", "-u", "a.py"] rfl (by decide)).2.2.2.1 rfl,
   (request_cancel_idempotent initGui "a.py" ["x\n"] 0 (some (-9)) 0
      (fun n => n) ["python", "-u", "a.py"] rfl (by decide)).2.2.2.2 (-9)
      (by decide) rfl⟩

theorem ioEventsOf_final (A : List GuiEvent) (lbl : String) (t : Nat) :
    (ioEventsOf (A ++ [GuiEvent.release, GuiEvent.statusEv (some lbl) (some t),
        GuiEvent.runButton true])).getLast? =
      some (GuiEvent.statusEv (some lbl) (some t)) := by
  have h1 : ioEventsOf (A ++ [GuiEvent.release,
      GuiEvent.statusEv (some lbl) (some t), GuiEvent.runButton true]) =
      ioEventsOf A ++ [GuiEvent.statusEv (some lbl) (some t)] := by
    simp [ioEventsOf, List.filter_append, isOutputEv, isStatusEv]
  rw [h1, List.getLast?_concat]

theorem chain_and_last (clock : Nat → Nat)
    (hm : ∀ a b : Nat, a ≤ b → clock a ≤ clock b) (p : Nat) :
    List.Chain' (· ≤ ·)
      (0 :: (elapsedList clock 0 p ++ [clock (p + 1) - clock 0])) ∧
    ∃ L, (0 :: (elapsedList clock 0 p ++
        [clock (p + 1) - clock 0])).getLast? = some L ∧
      ∀ x ∈ 0 :: (elapsedList clock 0 p ++ [clock (p + 1) - clock 0]),
        x ≤ L := by
  constructor
  · show List.Chain (· ≤ ·) 0
      (elapsedList clock 0 p ++ [clock (p + 1) - clock 0])
    have hch := chain_elapsed clock hm p 0
    simpa using hch
  · refine ⟨clock (p + 1) - clock 0, ?_, ?_⟩
    · rw [show (0 :: (elapsedList clock 0 p ++ [clock (p + 1) - clock 0])) =
        (0 :: elapsedList clock 0 p) ++ [clock (p + 1) - clock 0] from by simp]
      exact List.getLast?_concat _
    · intro x hx
      simp only [List.mem_cons, List.mem_append, List.mem_singleton] at hx
      rcases hx with hx | hx | hx
      · subst hx; exact Nat.zero_le _
      · have := mem_elapsedList_le clock hm p 0 x hx
        simpa using this
      · rcases hx with hx | hx
        · subst hx; exact Nat.le_refl _
        · simp at hx

/-- C6: delivery ordering within a run: output lines are delivered in
exactly the order the child emitted them (with the synthetic notice
appended last on cancellation); no per-line elapsed-time status update
precedes the output line it reports on; and the final labelled status
update is the last delivered output-or-status event, strictly after every
output line. -/
theorem event_ordering (g : Gui) (filename : String) (lines : List String)
    (c : Int) (pc : Option Int) (cf : Option Nat) (clock : Nat → Nat)
    (cmd : List String) (tr : List GuiEvent)
    (hb : build_script_command filename g.fileArg = Except.ok cmd)
    (htr : tr = (run_script_thread filename g.fileArg
        ⟨true, lines.map ReadResult.line, c, pc⟩ cf clock).1) :
    outputsOf tr = expectedOutputs lines cf ∧
    statusBalanced 0 tr = true ∧
    (∃ lbl t, (ioEventsOf tr).getLast? =
        some (GuiEvent.statusEv (some lbl) (some t))) := by
  subst htr
  rcases cf with _ | k
  · have hc := run_thread_none_char filename g.fileArg lines c pc clock cmd hb
    rw [hc]
    refine ⟨?_, ?_, ?_⟩
    · have ho := outputsOf_lineEvts clock lines 0
      simp only [outputsOf] at ho ⊢
      simp [preRunEvts, ho, expectedOutputs]
    · have hsb := statusBalanced_lineEvts clock lines 0
      simp [preRunEvts, statusBalanced, isOutputEv, isLineStatusEv,
        List.append_assoc, hsb]
    · exact ⟨_, _, ioEventsOf_final _ _ _⟩
  · by_cases hk : k < lines.length
    · have hc := run_thread_cancel_char filename g.fileArg lines c pc k
        clock cmd hb hk
      rw [hc]
      refine ⟨?_, ?_, ?_⟩
      · have ho := outputsOf_lineEvts clock (lines.take (k + 1)) 0
        simp only [outputsOf] at ho ⊢
        simp [preRunEvts, ho, hk, expectedOutputs]
      · have hsb := statusBalanced_lineEvts clock (lines.take (k + 1)) 0
        simp [preRunEvts, statusBalanced, isOutputEv, isLineStatusEv,
          List.append_assoc, hsb]
      · exact ⟨_, _, ioEventsOf_final _ _ _⟩
    · have hc := run_thread_late_char filename g.fileArg lines c pc k
        clock cmd hb hk
      rw [hc]
      refine ⟨?_, ?_, ?_⟩
      · have ho := outputsOf_lineEvts clock lines 0
        simp only [outputsOf] at ho ⊢
        simp [preRunEvts, ho, hk, expectedOutputs]
      · have hsb := statusBalanced_lineEvts clock lines 0
        simp [preRunEvts, statusBalanced, isOutputEv, isLineStatusEv,
          List.append_assoc, hsb]
      · exact ⟨_, _, ioEventsOf_final _ _ _⟩

/-- C6 witness: the ordering properties at a concrete cancel-free run. -/
theorem event_ordering_witness :
    outputsOf (run_script_thread "a.py" initGui.fileArg
        ⟨true, [ReadResult.line "x\n"], 0, none⟩ none (fun n => n)).1 =
      ["x\n"] ∧
    statusBalanced 0 (run_script_thread "a.py" initGui.fileArg
        ⟨true, [ReadResult.line "x\n"], 0, none⟩ none (fun n => n)).1 =
      true ∧
    (∃ lbl t, (ioEventsOf (run_script_thread "a.py" initGui.fileArg
        ⟨true, [ReadResult.line "x\n"], 0, none⟩ none
        (fun n => n)).1).getLast? =
      some (GuiEvent.statusEv (some lbl) (some t))) :=
  ⟨(event_ordering initGui "a.py" ["x\n"] 0 none none (fun n => n)
      ["python", "-u", "a.py"] _ rfl rfl).1,
   (event_ordering initGui "a.py" ["x\n"] 0 none none (fun n => n)
      ["python", "-u", "a.py"] _ rfl rfl).2.1,
   (event_ordering initGui "a.py" ["x\n"] 0 none none (fun n => n)
      ["python", "-u", "a.py"] _ rfl rfl).2.2⟩

/-- C8: within a run, the elapsed times carried by the status updates (one
initial `0`, one per output line, one final) form a non-decreasing
sequence, and the final status update's elapsed time is the last one and
bounds every earlier one, provided the wall clock is monotone. -/
theorem elapsed_monotone (g : Gui) (filename : String) (lines : List String)
    (c : Int) (pc : Option Int) (cf : Option Nat) (clock : Nat → Nat)
    (cmd : List String) (tr : List GuiEvent)
    (hm : ∀ a b : Nat, a ≤ b → clock a ≤ clock b)
    (hb : build_script_command filename g.fileArg = Except.ok cmd)
    (htr : tr = (run_script_thread filename g.fileArg
        ⟨true, lines.map ReadResult.line, c, pc⟩ cf clock).1) :
    List.Chain' (· ≤ ·) (statusElapsedOf tr) ∧
    ∃ L, (statusElapsedOf tr).getLast? = some L ∧
      ∀ x ∈ statusElapsedOf tr, x ≤ L := by
  subst htr
  rcases cf with _ | k
  · have hc := run_thread_none_char filename g.fileArg lines c pc clock cmd hb
    have hse : statusElapsedOf ((run_script_thread filename g.fileArg
        ⟨true, lines.map ReadResult.line, c, pc⟩ none clock).1) =
        0 :: (elapsedList clock 0 lines.length ++
          [clock (lines.length + 1) - clock 0]) := by
      rw [hc]
      have h1 := statusElapsedOf_lineEvts clock lines 0
      simp only [statusElapsedOf] at h1 ⊢
      simp [preRunEvts, h1]
    rw [hse]
    exact chain_and_last clock hm lines.length
  · by_cases hk : k < lines.length
    · have hc := run_thread_cancel_char filename g.fileArg lines c pc k
        clock cmd hb hk
      have hse : statusElapsedOf ((run_script_thread filename g.fileArg
          ⟨true, lines.map ReadResult.line, c, pc⟩ (some k) clock).1) =
          0 :: (elapsedList clock 0 (k + 1) ++
            [clock (k + 1 + 1) - clock 0]) := by
        rw [hc]
        have h1 := statusElapsedOf_lineEvts clock (lines.take (k + 1)) 0
        have h2 : (lines.take (k + 1)).length = k + 1 := by
          rw [List.length_take]
          omega
        rw [h2] at h1
        simp only [statusElapsedOf] at h1 ⊢
        simp [preRunEvts, h1]
      rw [hse]
      exact chain_and_last clock hm (k + 1)
    · have hc := run_thread_late_char filename g.fileArg lines c pc k
        clock cmd hb hk
      have hse : statusElapsedOf ((run_script_thread filename g.fileArg
          ⟨true, lines.map ReadResult.line, c, pc⟩ (some k) clock).1) =
          0 :: (elapsedList clock 0 lines.length ++
            [clock (lines.length + 1) - clock 0]) := by
        rw [hc]
        have h1 := statusElapsedOf_lineEvts clock lines 0
        simp only [statusElapsedOf] at h1 ⊢
        simp [preRunEvts, h1]
      rw [hse]
      exact chain_and_last clock hm lines.length

/-- C8 witness: monotone elapsed times at a concrete run under the
identity clock. -/
theorem elapsed_monotone_witness :
    List.Chain' (· ≤ ·) (statusElapsedOf (run_script_thread "a.py"
        initGui.fileArg ⟨true, [ReadResult.line "x\n"], 0, none⟩ none
        (fun n => n)).1) ∧
    ∃ L, (statusElapsedOf (run_script_thread "a.py" initGui.fileArg
        ⟨true, [ReadResult.line "x\n"], 0, none⟩ none
        (fun n => n)).1).getLast? = some L ∧
      ∀ x ∈ statusElapsedOf (run_script_thread "a.py" initGui.fileArg
          ⟨true, [ReadResult.line "x\n"], 0, none⟩ none (fun n => n)).1,
        x ≤ L :=
  elapsed_monotone initGui "a.py" ["x\n"] 0 none none (fun n => n)
    ["python", "-u", "a.py"] _ (fun a b h => h) rfl rfl
